import Mathlib

/-!
Verification of the shielding-optimizer module
(`Radioactive_Shielding_Optimizer.py`).

Modelling conventions:
* Python floats are modelled as real numbers (`ℝ`); `np.exp` / `np.log`
  are `Real.exp` / `Real.log`.
* A Python function that may `raise` is modelled as returning
  `Except String _`; `Except.error` is a raised exception.
* A material dict is a record of optional fields (a missing dict key is
  `none`); `dict.get(k, default)` is `Option.getD`.
* Numpy arrays are lists; a boolean mask followed by indexing is
  `List.filter`; `np.argmin` (which returns the FIRST index attaining the
  minimum) is `argminFirst`.
* `mc_transmission` receives the list of uniform variates produced by
  `np.random.random(N)` explicitly, so the sample count `N` is the list
  length.  Note that in the real-number model `x / 0 = 0`, where numpy
  produces `inf`/`nan`; no claim below depends on the numeric value of
  such a division, only on whether an exception is raised.
-/

/-- A material record: the Python dict with the optional keys the module
reads (`mu_lin`, `mu_mass`, `density`).  A missing key is `none`. -/
structure Material where
  mu_lin : Option ℝ
  mu_mass : Option ℝ
  density : Option ℝ

/-- `linear_mu_from_mass(mu_mass, density)`: mass attenuation coefficient
times density. -/
def linear_mu_from_mass (mu_mass density : ℝ) : ℝ := mu_mass * density

/-- `transmission_exponential(mu_lin, thickness) = exp(-mu_lin * thickness)`. -/
noncomputable def transmission_exponential (mu_lin thickness : ℝ) : ℝ :=
  Real.exp (-mu_lin * thickness)

/-- `required_thickness_for_target(mu_lin, target_fraction)`: raises
(`ValueError`) iff `target_fraction <= 0`, otherwise returns
`-log(target_fraction) / mu_lin`. -/
noncomputable def required_thickness_for_target (mu_lin target_fraction : ℝ) :
    Except String ℝ :=
  if target_fraction ≤ 0 then Except.error "target_fraction must be > 0"
  else Except.ok (-Real.log target_fraction / mu_lin)

/-- `mc_transmission(mu_lin, thickness, N)` with the sampled uniforms `U`
passed explicitly (`N = U.length`): path lengths `s = -log(U)/mu_lin`,
transmitted fraction = (number of samples with `s > thickness`) / N, and
the binomial standard error.  The body contains no `raise`. -/
noncomputable def mc_transmission (mu_lin thickness : ℝ) (U : List ℝ) :
    Except String (ℝ × ℝ) :=
  let s := U.map fun u => -Real.log u / mu_lin
  let transmitted := ((s.filter fun x => decide (thickness < x)).length : ℝ) /
    (U.length : ℝ)
  let se := Real.sqrt (transmitted * (1 - transmitted) / (U.length : ℝ))
  Except.ok (transmitted, se)

/-- `single_material_solution(material, target_fraction)`: picks `mu_lin`
from the material (directly, or derived from `mu_mass * density`, else
raises), solves for the thickness, and returns
`(thickness, density * thickness, transmission)` with
`density = material.get('density', 1.0)`. -/
noncomputable def single_material_solution (material : Material)
    (target_fraction : ℝ) : Except String (ℝ × ℝ × ℝ) :=
  match material.mu_lin with
  | some mu_lin =>
    (required_thickness_for_target mu_lin target_fraction).map fun thickness =>
      (thickness, material.density.getD 1 * thickness,
        transmission_exponential mu_lin thickness)
  | none =>
    match material.mu_mass, material.density with
    | some mu_mass, some density =>
      (required_thickness_for_target (linear_mu_from_mass mu_mass density)
          target_fraction).map fun thickness =>
        (thickness, material.density.getD 1 * thickness,
          transmission_exponential (linear_mu_from_mass mu_mass density) thickness)
    | _, _ => Except.error "Material must include mu_lin or (mu_mass and density)"

/-- The helper `mu_lin_from(mat)` inside `optimize_two_materials`:
`mat['mu_lin']` if present, else `mu_mass * density`; `none` models the
`KeyError` raised when the needed keys are absent. -/
def mu_lin_from (mat : Material) : Option ℝ :=
  match mat.mu_lin with
  | some m => some m
  | none =>
    match mat.mu_mass, mat.density with
    | some mm, some d => some (linear_mu_from_mass mm d)
    | _, _ => none

/-- `np.linspace(0, stop, num)`: `num` evenly spaced points from `0` to
`stop` inclusive (`[0]` for `num = 1`, `[]` for `num = 0`). -/
noncomputable def linspace (stop : ℝ) (num : ℕ) : List ℝ :=
  (List.range num).map fun i : ℕ =>
    if num ≤ 1 then 0 else stop * (i : ℝ) / ((num : ℝ) - 1)

/-- The `best_details` dict built by `optimize_two_materials`. -/
structure BestDetails where
  t1_cm : ℝ
  t2_cm : ℝ
  areal_density_g_per_cm2 : ℝ
  transmission : ℝ

/-- `np.argmin` semantics over a list: the FIRST element attaining the
minimum of `key`, or `none` on the empty list. -/
noncomputable def argminFirst {α : Type} (key : α → ℝ) : List α → Option α
  | [] => none
  | x :: xs => some (xs.foldl (fun b y => if key y < key b then y else b) x)

/-- One iteration of the outer `for t1 in t1_vals` loop of
`optimize_two_materials`: mask the feasible `t2` values
(`total_trans <= target_fraction`), then `np.argmin` of the areal density
over the masked values, packaging the row's best candidate. -/
noncomputable def rowBest (mu1 mu2 rho1 rho2 target_fraction t1 : ℝ)
    (t2_vals : List ℝ) : Option BestDetails :=
  let trans1 := Real.exp (-mu1 * t1)
  let feasible := t2_vals.filter fun t2 =>
    decide (trans1 * Real.exp (-mu2 * t2) ≤ target_fraction)
  (argminFirst (fun t2 => rho1 * t1 + rho2 * t2) feasible).map fun t2 =>
    { t1_cm := t1, t2_cm := t2,
      areal_density_g_per_cm2 := rho1 * t1 + rho2 * t2,
      transmission := trans1 * Real.exp (-mu2 * t2) }

/-- `optimize_two_materials`: resolve both materials' linear coefficients
(`Except.error` models the `KeyError` on a malformed material), build both
grids, and run the grid search, keeping the strictly better
(`this_best_areal < best`) candidate across rows.  Returns
`Except.ok none` (Python `None`) when no grid pair is feasible. -/
noncomputable def optimize_two_materials (mat1 mat2 : Material)
    (target_fraction max_thickness1 max_thickness2 : ℝ) (steps1 steps2 : ℕ) :
    Except String (Option BestDetails) :=
  match mu_lin_from mat1, mu_lin_from mat2 with
  | some mu1, some mu2 =>
    let rho1 := mat1.density.getD 1
    let rho2 := mat2.density.getD 1
    let t1_vals := linspace max_thickness1 steps1
    let t2_vals := linspace max_thickness2 steps2
    Except.ok (t1_vals.foldl
      (fun best t1 =>
        match rowBest mu1 mu2 rho1 rho2 target_fraction t1 t2_vals with
        | none => best
        | some cand =>
          match best with
          | none => some cand
          | some b =>
            if cand.areal_density_g_per_cm2 < b.areal_density_g_per_cm2 then
              some cand
            else best)
      none)
  | _, _ => Except.error "KeyError: material lacks mu_lin and (mu_mass, density)"

/-- Areal density of a returned design, `none` for an exception or for
`None` (no feasible solution). -/
def arealOf : Except String (Option BestDetails) → Option ℝ
  | Except.ok (some d) => some d.areal_density_g_per_cm2
  | _ => none

/-- A concrete material with a directly specified linear coefficient. -/
def matUnit : Material := ⟨some 1, none, some 1⟩

/-- A concrete material supplying `mu_lin` but no density. -/
def matNoDensity : Material := ⟨some 1, none, none⟩

/-! ### Generic facts about first-occurrence argmin and the search folds -/

/-- The running-minimum fold keeps the first strict minimum: the result is
either the accumulator (and no later element is smaller) or an element of
the list, strictly smaller than the accumulator and than everything before
it, and no larger than everything after it. -/
theorem foldMin_spec {α : Type} (key : α → ℝ) :
    ∀ (xs : List α) (acc r : α),
      xs.foldl (fun b y => if key y < key b then y else b) acc = r →
      (r = acc ∧ ∀ y ∈ xs, key acc ≤ key y) ∨
      (∃ l₁ l₂, xs = l₁ ++ r :: l₂ ∧ key r < key acc ∧
        (∀ y ∈ l₁, key r < key y) ∧ (∀ y ∈ l₂, key r ≤ key y)) := by
  intro xs
  induction xs with
  | nil =>
    intro acc r h
    exact Or.inl ⟨h.symm, by simp⟩
  | cons y ys ih =>
    intro acc r h
    rw [List.foldl_cons] at h
    by_cases hc : key y < key acc
    · rw [if_pos hc] at h
      rcases ih y r h with ⟨rfl, hmin⟩ | ⟨l₁, l₂, hsplit, hlt, hbef, haft⟩
      · exact Or.inr ⟨[], ys, rfl, hc, by simp, hmin⟩
      · refine Or.inr ⟨y :: l₁, l₂, by rw [hsplit]; rfl, lt_trans hlt hc, ?_, haft⟩
        intro z hz
        rcases List.mem_cons.mp hz with rfl | hz
        · exact hlt
        · exact hbef z hz
    · rw [if_neg hc] at h
      rcases ih acc r h with ⟨rfl, hmin⟩ | ⟨l₁, l₂, hsplit, hlt, hbef, haft⟩
      · refine Or.inl ⟨rfl, ?_⟩
        intro z hz
        rcases List.mem_cons.mp hz with rfl | hz
        · exact not_lt.mp hc
        · exact hmin z hz
      · refine Or.inr ⟨y :: l₁, l₂, by rw [hsplit]; rfl, hlt, ?_, haft⟩
        intro z hz
        rcases List.mem_cons.mp hz with rfl | hz
        · exact lt_of_lt_of_le hlt (not_lt.mp hc)
        · exact hbef z hz

/-- Full characterization of `argminFirst`: it returns the first element
attaining the minimum of `key`. -/
theorem argminFirst_spec {α : Type} (key : α → ℝ) (l : List α) (x : α)
    (h : argminFirst key l = some x) :
    ∃ l₁ l₂, l = l₁ ++ x :: l₂ ∧ (∀ y ∈ l₁, key x < key y) ∧
      (∀ y ∈ l₂, key x ≤ key y) := by
  cases l with
  | nil => simp [argminFirst] at h
  | cons a as =>
    rw [argminFirst, Option.some_inj] at h
    rcases foldMin_spec key as a x h with ⟨rfl, hmin⟩ | ⟨l₁, l₂, hsplit, hlt, hbef, haft⟩
    · exact ⟨[], as, rfl, by simp, hmin⟩
    · refine ⟨a :: l₁, l₂, by rw [hsplit]; rfl, ?_, haft⟩
      intro z hz
      rcases List.mem_cons.mp hz with rfl | hz
      · exact hlt
      · exact hbef z hz

/-- The chosen element belongs to the list. -/
theorem argminFirst_mem {α : Type} (key : α → ℝ) (l : List α) (x : α)
    (h : argminFirst key l = some x) : x ∈ l := by
  rcases argminFirst_spec key l x h with ⟨l₁, l₂, hsplit, -, -⟩
  rw [hsplit]
  exact List.mem_append.mpr (Or.inr (List.mem_cons_self x l₂))

/-- The chosen element minimizes `key` over the list. -/
theorem argminFirst_le {α : Type} (key : α → ℝ) (l : List α) (x : α)
    (h : argminFirst key l = some x) : ∀ y ∈ l, key x ≤ key y := by
  rcases argminFirst_spec key l x h with ⟨l₁, l₂, hsplit, hbef, haft⟩
  intro y hy
  rw [hsplit] at hy
  rcases List.mem_append.mp hy with hy | hy
  · exact le_of_lt (hbef y hy)
  · rcases List.mem_cons.mp hy with rfl | hy
    · exact le_refl _
    · exact haft y hy

/-- `argminFirst` fails exactly on the empty list. -/
theorem argminFirst_eq_none_iff {α : Type} (key : α → ℝ) (l : List α) :
    argminFirst key l = none ↔ l = [] := by
  cases l with
  | nil => simp [argminFirst]
  | cons a as => simp [argminFirst]

/-- Tie-breaking: if the list is sorted by a reflexive relation `S`, any
element tying the chosen minimum is `S`-after the chosen element. -/
theorem argminFirst_first_tie {α : Type} (key : α → ℝ) (S : α → α → Prop)
    (hrefl : ∀ z : α, S z z) (l : List α) (x : α) (hsorted : l.Pairwise S)
    (h : argminFirst key l = some x) :
    ∀ y ∈ l, key y = key x → S x y := by
  rcases argminFirst_spec key l x h with ⟨l₁, l₂, hsplit, hbef, -⟩
  intro y hy hkey
  rw [hsplit] at hy hsorted
  rcases List.mem_append.mp hy with hy | hy
  · exact absurd hkey (ne_of_gt (hbef y hy))
  · rcases List.mem_cons.mp hy with rfl | hy
    · exact hrefl _
    · exact List.rel_of_pairwise_cons ((List.pairwise_append.mp hsorted).2.1) hy

/-- Skipping rows that produce no candidate: the outer fold of the grid
search equals a fold over the list of row candidates. -/
theorem foldl_rows_eq_foldl_filterMap (row : ℝ → Option BestDetails) :
    ∀ (l : List ℝ) (b : Option BestDetails),
      l.foldl (fun best t1 =>
        match row t1 with
        | none => best
        | some cand =>
          match best with
          | none => some cand
          | some bb =>
            if cand.areal_density_g_per_cm2 < bb.areal_density_g_per_cm2 then
              some cand
            else best) b
      = (l.filterMap row).foldl (fun best cand =>
          match best with
          | none => some cand
          | some bb =>
            if cand.areal_density_g_per_cm2 < bb.areal_density_g_per_cm2 then
              some cand
            else some bb) b := by
  intro l
  induction l with
  | nil => intro b; simp
  | cons t ts ih =>
    intro b
    rw [List.foldl_cons, List.filterMap_cons]
    cases hr : row t with
    | none => exact ih b
    | some cand =>
      rw [List.foldl_cons]
      cases b with
      | none => exact ih (some cand)
      | some bb =>
        by_cases hlt :
            cand.areal_density_g_per_cm2 < bb.areal_density_g_per_cm2 <;>
          simp only [hlt, if_pos, if_neg, ite_true, ite_false] <;> exact ih _

/-- The candidate fold started from `none` computes the first argmin of the
areal density over the candidate list. -/
theorem foldl_cands_eq_argminFirst :
    ∀ (cs : List BestDetails),
      cs.foldl (fun best cand =>
        match best with
        | none => some cand
        | some bb =>
          if cand.areal_density_g_per_cm2 < bb.areal_density_g_per_cm2 then
            some cand
          else some bb) none
      = argminFirst (fun d => d.areal_density_g_per_cm2) cs := by
  have haux : ∀ (cs : List BestDetails) (x : BestDetails),
      cs.foldl (fun best cand =>
        match best with
        | none => some cand
        | some bb =>
          if cand.areal_density_g_per_cm2 < bb.areal_density_g_per_cm2 then
            some cand
          else some bb) (some x)
      = some (cs.foldl (fun b y =>
          if y.areal_density_g_per_cm2 < b.areal_density_g_per_cm2 then y else b) x) := by
    intro cs
    induction cs with
    | nil => intro x; rfl
    | cons c cs ih =>
      intro x
      rw [List.foldl_cons, List.foldl_cons]
      by_cases hlt : c.areal_density_g_per_cm2 < x.areal_density_g_per_cm2 <;>
        simp only [hlt, ite_true, ite_false] <;> exact ih _
  intro cs
  cases cs with
  | nil => rfl
  | cons c cs =>
    rw [List.foldl_cons, argminFirst]
    exact haux cs c

/-- A relation-preserving map through `filterMap` preserves pairwiseness. -/
theorem pairwise_filterMap_of {α β : Type} {R : α → α → Prop}
    {S : β → β → Prop} (f : α → Option β)
    (hf : ∀ a b x y, R a b → f a = some x → f b = some y → S x y) :
    ∀ l : List α, l.Pairwise R → (l.filterMap f).Pairwise S := by
  intro l
  induction l with
  | nil => intro _; simp
  | cons a as ih =>
    intro hp
    rw [List.filterMap_cons]
    cases hfa : f a with
    | none => exact ih hp.of_cons
    | some x =>
      refine List.Pairwise.cons ?_ (ih hp.of_cons)
      intro y hy
      rcases List.mem_filterMap.mp hy with ⟨b, hb, hfb⟩
      exact hf a b x y (List.rel_of_pairwise_cons hp hb) hfa hfb

/-! ### Facts about linspace -/

/-- Every linspace point is nonnegative when the endpoint is. -/
theorem linspace_nonneg (stop : ℝ) (num : ℕ) (hstop : 0 ≤ stop) :
    ∀ t ∈ linspace stop num, 0 ≤ t := by
  intro t ht
  rw [linspace] at ht
  rcases List.mem_map.mp ht with ⟨i, hi, rfl⟩
  by_cases hn : num ≤ 1
  · simp [hn]
  · rw [if_neg hn]
    have hd : (0 : ℝ) ≤ (num : ℝ) - 1 := by
      have : (1 : ℕ) < num := lt_of_not_le hn
      have h1 : (1 : ℝ) ≤ (num : ℝ) := by exact_mod_cast le_of_lt this
      linarith
    exact div_nonneg (mul_nonneg hstop (Nat.cast_nonneg i)) hd

/-- The linspace grid is sorted (weakly ascending) when the endpoint is
nonnegative. -/
theorem linspace_pairwise (stop : ℝ) (num : ℕ) (hstop : 0 ≤ stop) :
    (linspace stop num).Pairwise (· ≤ ·) := by
  rw [linspace]
  refine (List.pairwise_lt_range num).map _ ?_
  intro i j hij
  by_cases hn : num ≤ 1
  · simp [hn]
  · rw [if_neg hn, if_neg hn]
    have hd : (0 : ℝ) < (num : ℝ) - 1 := by
      have : (1 : ℕ) < num := lt_of_not_le hn
      have h1 : (1 : ℝ) < (num : ℝ) := by exact_mod_cast this
      linarith
    have hij' : (i : ℝ) ≤ (j : ℝ) := by exact_mod_cast le_of_lt hij
    have : stop * (i : ℝ) ≤ stop * (j : ℝ) := mul_le_mul_of_nonneg_left hij' hstop
    exact div_le_div_of_nonneg_right this hd.le

/-! ### Facts about a single row of the grid search -/

/-- Characterization of a successful row: the candidate's fields, its
feasibility, and its minimality over the feasible `t2` of the row. -/
theorem rowBest_eq_some (mu1 mu2 rho1 rho2 T t1 : ℝ) (t2_vals : List ℝ)
    (d : BestDetails) (h : rowBest mu1 mu2 rho1 rho2 T t1 t2_vals = some d) :
    d.t1_cm = t1 ∧ d.t2_cm ∈ t2_vals ∧
      d.areal_density_g_per_cm2 = rho1 * t1 + rho2 * d.t2_cm ∧
      d.transmission = Real.exp (-mu1 * t1) * Real.exp (-mu2 * d.t2_cm) ∧
      d.transmission ≤ T ∧
      ∀ t2 ∈ t2_vals, Real.exp (-mu1 * t1) * Real.exp (-mu2 * t2) ≤ T →
        d.areal_density_g_per_cm2 ≤ rho1 * t1 + rho2 * t2 := by
  rw [rowBest] at h
  rcases Option.map_eq_some'.mp h with ⟨t2, hmin, hrec⟩
  subst hrec
  have hmem := argminFirst_mem _ _ _ hmin
  have hfeas := (List.mem_filter.mp hmem).2
  rw [decide_eq_true_eq] at hfeas
  refine ⟨rfl, (List.mem_filter.mp hmem).1, rfl, rfl, hfeas, ?_⟩
  intro t2' ht2' hf'
  have ht2f : t2' ∈ t2_vals.filter fun t2 =>
      decide (Real.exp (-mu1 * t1) * Real.exp (-mu2 * t2) ≤ T) :=
    List.mem_filter.mpr ⟨ht2', decide_eq_true hf'⟩
  exact argminFirst_le _ _ _ hmin t2' ht2f

/-- A row yields no candidate exactly when no `t2` of the grid is
feasible for this `t1`. -/
theorem rowBest_eq_none_iff (mu1 mu2 rho1 rho2 T t1 : ℝ) (t2_vals : List ℝ) :
    rowBest mu1 mu2 rho1 rho2 T t1 t2_vals = none ↔
      ∀ t2 ∈ t2_vals, ¬ Real.exp (-mu1 * t1) * Real.exp (-mu2 * t2) ≤ T := by
  rw [rowBest, Option.map_eq_none', argminFirst_eq_none_iff, List.filter_eq_nil_iff]
  constructor
  · intro h t2 ht2 hf
    exact h t2 ht2 (decide_eq_true hf)
  · intro h t2 ht2 hd
    exact h t2 ht2 (of_decide_eq_true hd)

/-- Tie-breaking inside a row: among feasible `t2` attaining the row's
minimal areal density, the first (hence, on a sorted grid, smallest) is
returned. -/
theorem rowBest_tie (mu1 mu2 rho1 rho2 T t1 : ℝ) (t2_vals : List ℝ)
    (d : BestDetails) (hsorted : t2_vals.Pairwise (· ≤ ·))
    (h : rowBest mu1 mu2 rho1 rho2 T t1 t2_vals = some d) :
    ∀ t2 ∈ t2_vals, Real.exp (-mu1 * t1) * Real.exp (-mu2 * t2) ≤ T →
      rho1 * t1 + rho2 * t2 = d.areal_density_g_per_cm2 → d.t2_cm ≤ t2 := by
  rw [rowBest] at h
  rcases Option.map_eq_some'.mp h with ⟨t2b, hmin, hrec⟩
  subst hrec
  intro t2 ht2 hf harel
  have hsf : (t2_vals.filter fun t2 =>
      decide (Real.exp (-mu1 * t1) * Real.exp (-mu2 * t2) ≤ T)).Pairwise
        (· ≤ ·) :=
    hsorted.sublist (List.filter_sublist t2_vals)
  have ht2f : t2 ∈ t2_vals.filter fun t2 =>
      decide (Real.exp (-mu1 * t1) * Real.exp (-mu2 * t2) ≤ T) :=
    List.mem_filter.mpr ⟨ht2, decide_eq_true hf⟩
  exact argminFirst_first_tie _ _ (fun z => le_refl z) _ _ hsf hmin t2 ht2f harel

/-! ### Facts about the full optimizer -/

/-- With both materials resolvable, the optimizer is the first argmin of
areal density over the per-row candidates. -/
theorem optimize_eq (mat1 mat2 : Material) (mu1 mu2 T max1 max2 : ℝ)
    (s1 s2 : ℕ) (h1 : mu_lin_from mat1 = some mu1)
    (h2 : mu_lin_from mat2 = some mu2) :
    optimize_two_materials mat1 mat2 T max1 max2 s1 s2 =
      Except.ok (argminFirst (fun d => d.areal_density_g_per_cm2)
        ((linspace max1 s1).filterMap fun t1 =>
          rowBest mu1 mu2 (mat1.density.getD 1) (mat2.density.getD 1) T t1
            (linspace max2 s2))) := by
  have hfold : optimize_two_materials mat1 mat2 T max1 max2 s1 s2 =
      Except.ok ((linspace max1 s1).foldl
        (fun best t1 =>
          match rowBest mu1 mu2 (mat1.density.getD 1) (mat2.density.getD 1) T
              t1 (linspace max2 s2) with
          | none => best
          | some cand =>
            match best with
            | none => some cand
            | some b =>
              if cand.areal_density_g_per_cm2 < b.areal_density_g_per_cm2 then
                some cand
              else best)
        none) := by
    rw [optimize_two_materials, h1, h2]
  rw [hfold, foldl_rows_eq_foldl_filterMap, foldl_cands_eq_argminFirst]

/-- Soundness and grid-minimality of a returned design: it sits on the
grid, its fields are consistent, its transmission meets the target, and
its areal density is least among all feasible grid pairs. -/
theorem opt_some_spec (mat1 mat2 : Material) (mu1 mu2 T max1 max2 : ℝ)
    (s1 s2 : ℕ) (d : BestDetails) (h1 : mu_lin_from mat1 = some mu1)
    (h2 : mu_lin_from mat2 = some mu2)
    (hres : optimize_two_materials mat1 mat2 T max1 max2 s1 s2 =
      Except.ok (some d)) :
    d.t1_cm ∈ linspace max1 s1 ∧ d.t2_cm ∈ linspace max2 s2 ∧
      d.areal_density_g_per_cm2 =
        mat1.density.getD 1 * d.t1_cm + mat2.density.getD 1 * d.t2_cm ∧
      d.transmission = Real.exp (-mu1 * d.t1_cm) * Real.exp (-mu2 * d.t2_cm) ∧
      d.transmission ≤ T ∧
      rowBest mu1 mu2 (mat1.density.getD 1) (mat2.density.getD 1) T d.t1_cm
        (linspace max2 s2) = some d ∧
      ∀ t1 ∈ linspace max1 s1, ∀ t2 ∈ linspace max2 s2,
        Real.exp (-mu1 * t1) * Real.exp (-mu2 * t2) ≤ T →
        d.areal_density_g_per_cm2 ≤
          mat1.density.getD 1 * t1 + mat2.density.getD 1 * t2 := by
  rw [optimize_eq mat1 mat2 mu1 mu2 T max1 max2 s1 s2 h1 h2] at hres
  rw [Except.ok.injEq] at hres
  have hmem := argminFirst_mem _ _ _ hres
  rcases List.mem_filterMap.mp hmem with ⟨t1b, ht1b, hrow⟩
  obtain ⟨ht1eq, ht2mem, hareal, htrans, hfeas, -⟩ :=
    rowBest_eq_some _ _ _ _ _ _ _ _ hrow
  subst ht1eq
  refine ⟨ht1b, ht2mem, hareal, htrans, hfeas, hrow, ?_⟩
  intro t1 ht1 t2 ht2 hf
  cases hrow' : rowBest mu1 mu2 (mat1.density.getD 1) (mat2.density.getD 1) T
      t1 (linspace max2 s2) with
  | none =>
    exact absurd hf ((rowBest_eq_none_iff _ _ _ _ _ _ _).mp hrow' t2 ht2)
  | some c =>
    obtain ⟨-, -, -, -, -, hcmin⟩ := rowBest_eq_some _ _ _ _ _ _ _ _ hrow'
    have hccs : c ∈ (linspace max1 s1).filterMap fun t1 =>
        rowBest mu1 mu2 (mat1.density.getD 1) (mat2.density.getD 1) T t1
          (linspace max2 s2) :=
      List.mem_filterMap.mpr ⟨t1, ht1, hrow'⟩
    exact le_trans (argminFirst_le _ _ _ hres c hccs) (hcmin t2 ht2 hf)

/-- The optimizer reports no solution exactly when no grid pair is
feasible. -/
theorem opt_none_iff (mat1 mat2 : Material) (mu1 mu2 T max1 max2 : ℝ)
    (s1 s2 : ℕ) (h1 : mu_lin_from mat1 = some mu1)
    (h2 : mu_lin_from mat2 = some mu2) :
    optimize_two_materials mat1 mat2 T max1 max2 s1 s2 = Except.ok none ↔
      ∀ t1 ∈ linspace max1 s1, ∀ t2 ∈ linspace max2 s2,
        ¬ Real.exp (-mu1 * t1) * Real.exp (-mu2 * t2) ≤ T := by
  rw [optimize_eq mat1 mat2 mu1 mu2 T max1 max2 s1 s2 h1 h2, Except.ok.injEq,
    argminFirst_eq_none_iff, List.filterMap_eq_nil_iff]
  constructor
  · intro h t1 ht1
    exact (rowBest_eq_none_iff _ _ _ _ _ _ _).mp (h t1 ht1)
  · intro h t1 ht1
    exact (rowBest_eq_none_iff _ _ _ _ _ _ _).mpr (h t1 ht1)

/-- Completeness: a feasible grid pair forces the optimizer to return a
design. -/
theorem opt_feasible_some (mat1 mat2 : Material) (mu1 mu2 T max1 max2 : ℝ)
    (s1 s2 : ℕ) (t1 t2 : ℝ) (h1 : mu_lin_from mat1 = some mu1)
    (h2 : mu_lin_from mat2 = some mu2) (ht1 : t1 ∈ linspace max1 s1)
    (ht2 : t2 ∈ linspace max2 s2)
    (hf : Real.exp (-mu1 * t1) * Real.exp (-mu2 * t2) ≤ T) :
    ∃ d, optimize_two_materials mat1 mat2 T max1 max2 s1 s2 =
      Except.ok (some d) := by
  rw [optimize_eq mat1 mat2 mu1 mu2 T max1 max2 s1 s2 h1 h2]
  cases hrow : rowBest mu1 mu2 (mat1.density.getD 1) (mat2.density.getD 1) T
      t1 (linspace max2 s2) with
  | none => exact absurd hf ((rowBest_eq_none_iff _ _ _ _ _ _ _).mp hrow t2 ht2)
  | some c =>
    have hccs : c ∈ (linspace max1 s1).filterMap fun t1 =>
        rowBest mu1 mu2 (mat1.density.getD 1) (mat2.density.getD 1) T t1
          (linspace max2 s2) :=
      List.mem_filterMap.mpr ⟨t1, ht1, hrow⟩
    cases hargs : argminFirst (fun d => d.areal_density_g_per_cm2)
        ((linspace max1 s1).filterMap fun t1 =>
          rowBest mu1 mu2 (mat1.density.getD 1) (mat2.density.getD 1) T t1
            (linspace max2 s2)) with
    | none =>
      rw [argminFirst_eq_none_iff] at hargs
      rw [hargs] at hccs
      cases hccs
    | some d => exact ⟨d, rfl⟩

/-- Tie-breaking of the full search on sorted grids: any feasible grid
pair attaining the returned minimal areal density has `t1` no smaller
than the returned one, and if it lies in the returned row, `t2` no
smaller than the returned one. -/
theorem opt_tie (mat1 mat2 : Material) (mu1 mu2 T max1 max2 : ℝ)
    (s1 s2 : ℕ) (d : BestDetails) (h1 : mu_lin_from mat1 = some mu1)
    (h2 : mu_lin_from mat2 = some mu2) (hmax1 : 0 ≤ max1) (hmax2 : 0 ≤ max2)
    (hres : optimize_two_materials mat1 mat2 T max1 max2 s1 s2 =
      Except.ok (some d)) :
    ∀ t1 ∈ linspace max1 s1, ∀ t2 ∈ linspace max2 s2,
      Real.exp (-mu1 * t1) * Real.exp (-mu2 * t2) ≤ T →
      mat1.density.getD 1 * t1 + mat2.density.getD 1 * t2 =
        d.areal_density_g_per_cm2 →
      d.t1_cm ≤ t1 ∧ (t1 = d.t1_cm → d.t2_cm ≤ t2) := by
  obtain ⟨ht1mem, ht2mem, hareal, htrans, hfeas, hrowd, hmin⟩ :=
    opt_some_spec mat1 mat2 mu1 mu2 T max1 max2 s1 s2 d h1 h2 hres
  have hres' := hres
  rw [optimize_eq mat1 mat2 mu1 mu2 T max1 max2 s1 s2 h1 h2,
    Except.ok.injEq] at hres'
  intro t1 ht1 t2 ht2 hf harel
  have hrow1 : ∃ c, rowBest mu1 mu2 (mat1.density.getD 1)
      (mat2.density.getD 1) T t1 (linspace max2 s2) = some c := by
    cases hrow' : rowBest mu1 mu2 (mat1.density.getD 1) (mat2.density.getD 1)
        T t1 (linspace max2 s2) with
    | none =>
      exact absurd hf ((rowBest_eq_none_iff _ _ _ _ _ _ _).mp hrow' t2 ht2)
    | some c => exact ⟨c, rfl⟩
  rcases hrow1 with ⟨c, hrowc⟩
  obtain ⟨hct1, -, -, -, -, hcmin⟩ := rowBest_eq_some _ _ _ _ _ _ _ _ hrowc
  have hccs : c ∈ (linspace max1 s1).filterMap fun t1 =>
      rowBest mu1 mu2 (mat1.density.getD 1) (mat2.density.getD 1) T t1
        (linspace max2 s2) :=
    List.mem_filterMap.mpr ⟨t1, ht1, hrowc⟩
  have hcle : c.areal_density_g_per_cm2 ≤ d.areal_density_g_per_cm2 := by
    rw [← harel]
    exact hcmin t2 ht2 hf
  have hdle : d.areal_density_g_per_cm2 ≤ c.areal_density_g_per_cm2 :=
    argminFirst_le _ _ _ hres' c hccs
  have hceq : c.areal_density_g_per_cm2 = d.areal_density_g_per_cm2 :=
    le_antisymm hcle hdle
  have hpair : ((linspace max1 s1).filterMap fun t1 =>
      rowBest mu1 mu2 (mat1.density.getD 1) (mat2.density.getD 1) T t1
        (linspace max2 s2)).Pairwise fun a b => a.t1_cm ≤ b.t1_cm := by
    refine pairwise_filterMap_of _ ?_ _ (linspace_pairwise max1 s1 hmax1)
    intro a b x y hab hxa hyb
    obtain ⟨hxa', -, -, -, -, -⟩ := rowBest_eq_some _ _ _ _ _ _ _ _ hxa
    obtain ⟨hyb', -, -, -, -, -⟩ := rowBest_eq_some _ _ _ _ _ _ _ _ hyb
    rw [hxa', hyb']
    exact hab
  have hfirst := argminFirst_first_tie
    (fun d : BestDetails => d.areal_density_g_per_cm2)
    (fun a b : BestDetails => a.t1_cm ≤ b.t1_cm)
    (fun z : BestDetails => le_refl z.t1_cm) _ d hpair hres' c hccs hceq
  constructor
  · rw [← hct1]
    exact hfirst
  · intro ht1d
    subst ht1d
    rw [hrowd] at hrowc
    rw [Option.some_inj] at hrowc
    subst hrowc
    exact rowBest_tie _ _ _ _ _ _ _ _ (linspace_pairwise max2 s2 hmax2) hrowd
      t2 ht2 hf harel

theorem linspace_zero_one : linspace 0 1 = [0] := by
  rw [linspace]
  rw [show List.range 1 = [0] from by decide]
  norm_num

theorem linspace_two_three : linspace 2 3 = [0, 1, 2] := by
  rw [linspace]
  rw [show List.range 3 = [0, 1, 2] from by decide]
  norm_num

theorem linspace_two_four : linspace 2 4 = [0, 2/3, 4/3, 2] := by
  rw [linspace]
  rw [show List.range 4 = [0, 1, 2, 3] from by decide]
  norm_num

theorem rowBest_trivial : rowBest 1 1 1 1 1 0 [0] = some ⟨0, 0, 0, 1⟩ := by
  rw [rowBest]
  norm_num [List.filter, argminFirst, Real.exp_zero]

theorem opt_trivial : optimize_two_materials matUnit matUnit 1 0 0 1 1 =
    Except.ok (some ⟨0, 0, 0, 1⟩) := by
  have h1 : mu_lin_from matUnit = some 1 := rfl
  rw [optimize_eq matUnit matUnit 1 1 1 0 0 1 1 h1 h1, linspace_zero_one]
  have hd : matUnit.density.getD 1 = 1 := rfl
  rw [hd, List.filterMap_cons]
  rw [rowBest_trivial]
  simp [argminFirst]

theorem rowBest_c7_infeasible (t1 : ℝ) (h : t1 < 1) :
    rowBest 1 1 1 1 (Real.exp (-1)) t1 [0] = none := by
  rw [rowBest_eq_none_iff]
  intro t2 ht2
  rcases List.mem_singleton.mp ht2 with rfl
  rw [show (-1 : ℝ) * 0 = 0 by ring, Real.exp_zero, mul_one, Real.exp_le_exp]
  intro hle
  linarith

theorem rowBest_c7_feasible (t1 : ℝ) (h : 1 ≤ t1) :
    rowBest 1 1 1 1 (Real.exp (-1)) t1 [0] =
      some ⟨t1, 0, 1 * t1 + 1 * 0, Real.exp (-1 * t1) * Real.exp (-1 * 0)⟩ := by
  rw [rowBest]
  have hp : decide (Real.exp (-1 * t1) * Real.exp (-1 * 0) ≤ Real.exp (-1)) = true := by
    rw [decide_eq_true_eq]
    rw [show (-1 : ℝ) * 0 = 0 by ring, Real.exp_zero, mul_one, Real.exp_le_exp]
    linarith
  simp only [List.filter, hp, argminFirst, List.foldl_nil, Option.map_some']

theorem opt_c7_coarse :
    arealOf (optimize_two_materials matUnit matUnit (Real.exp (-1)) 2 0 3 1) =
      some 1 := by
  have h1 : mu_lin_from matUnit = some 1 := rfl
  rw [optimize_eq matUnit matUnit 1 1 (Real.exp (-1)) 2 0 3 1 h1 h1,
    linspace_two_three, linspace_zero_one]
  have hd : matUnit.density.getD 1 = 1 := rfl
  rw [hd]
  simp only [List.filterMap_cons, List.filterMap_nil,
    rowBest_c7_infeasible 0 (by norm_num), rowBest_c7_feasible 1 (by norm_num),
    rowBest_c7_feasible 2 (by norm_num)]
  rw [argminFirst]
  norm_num [arealOf]

theorem opt_c7_fine :
    arealOf (optimize_two_materials matUnit matUnit (Real.exp (-1)) 2 0 4 1) =
      some (4 / 3) := by
  have h1 : mu_lin_from matUnit = some 1 := rfl
  rw [optimize_eq matUnit matUnit 1 1 (Real.exp (-1)) 2 0 4 1 h1 h1,
    linspace_two_four, linspace_zero_one]
  have hd : matUnit.density.getD 1 = 1 := rfl
  rw [hd]
  simp only [List.filterMap_cons, List.filterMap_nil,
    rowBest_c7_infeasible 0 (by norm_num),
    rowBest_c7_infeasible (2/3) (by norm_num),
    rowBest_c7_feasible (4/3) (by norm_num),
    rowBest_c7_feasible 2 (by norm_num)]
  rw [argminFirst]
  norm_num [arealOf]

/-- Claim C6: for every linearCoefficient > 0 and thickness >= 0, the
transmission lies in (0, 1], is strictly decreasing in thickness, and
`required_thickness_for_target` inverts it exactly (round-trip). -/
theorem transmission_range_mono_roundtrip (mu t : ℝ) (hmu : 0 < mu)
    (ht : 0 ≤ t) :
    0 < transmission_exponential mu t ∧ transmission_exponential mu t ≤ 1 ∧
      (∀ t', t < t' →
        transmission_exponential mu t' < transmission_exponential mu t) ∧
      required_thickness_for_target mu (transmission_exponential mu t) =
        Except.ok t := by
  refine ⟨Real.exp_pos _, ?_, ?_, ?_⟩
  · rw [transmission_exponential, Real.exp_le_one_iff]
    nlinarith
  · intro t' htt'
    rw [transmission_exponential, transmission_exponential, Real.exp_lt_exp]
    nlinarith
  · rw [transmission_exponential, required_thickness_for_target,
      if_neg (not_le.mpr (Real.exp_pos _)), Real.log_exp, Except.ok.injEq]
    field_simp

theorem transmission_range_mono_roundtrip_witness :
    0 < transmission_exponential 1 0 ∧ transmission_exponential 1 0 ≤ 1 ∧
      (∀ t', 0 < t' →
        transmission_exponential 1 t' < transmission_exponential 1 0) ∧
      required_thickness_for_target 1 (transmission_exponential 1 0) =
        Except.ok 0 :=
  transmission_range_mono_roundtrip 1 0 one_pos (le_refl 0)

/-- Claim C8: for a valid material and a target in (0, 1],
`single_material_solution` returns the thickness solved by
`required_thickness_for_target` on the (possibly derived) linear
coefficient, areal density = density x thickness, and an achieved
transmission exactly equal to the target. -/
theorem single_material_solution_spec (mat : Material) (mu dens T : ℝ)
    (hmu_sel : mu_lin_from mat = some mu) (hd : mat.density = some dens)
    (hmu : 0 < mu) (hT0 : 0 < T) (hT1 : T ≤ 1) :
    required_thickness_for_target mu T = Except.ok (-Real.log T / mu) ∧
      single_material_solution mat T =
        Except.ok (-Real.log T / mu, dens * (-Real.log T / mu), T) := by
  have hreq : required_thickness_for_target mu T =
      Except.ok (-Real.log T / mu) := by
    rw [required_thickness_for_target, if_neg (not_le.mpr hT0)]
  have htrans : transmission_exponential mu (-Real.log T / mu) = T := by
    rw [transmission_exponential]
    rw [show -mu * (-Real.log T / mu) = Real.log T by field_simp]
    exact Real.exp_log hT0
  refine ⟨hreq, ?_⟩
  rw [mu_lin_from] at hmu_sel
  cases hml : mat.mu_lin with
  | some m =>
    rw [hml, Option.some_inj] at hmu_sel
    subst hmu_sel
    simp only [single_material_solution, hml, hreq, hd, Except.map]
    simp [htrans]
  | none =>
    rw [hml] at hmu_sel
    cases hmm : mat.mu_mass with
    | none => rw [hmm, hd] at hmu_sel; cases hmu_sel
    | some mm =>
      rw [hmm, hd, Option.some_inj] at hmu_sel
      simp only [single_material_solution, hml, hmm, hd, hmu_sel, hreq, Except.map]
      simp [htrans]

theorem single_material_solution_spec_witness :
    required_thickness_for_target 1 1 = Except.ok (-Real.log 1 / 1) ∧
      single_material_solution matUnit 1 =
        Except.ok (-Real.log 1 / 1, 1 * (-Real.log 1 / 1), 1) :=
  single_material_solution_spec matUnit 1 1 1 rfl rfl one_pos one_pos le_rfl

/-- Claim C1: a design returned by `optimize_two_materials` has combined
transmission at most the target, lies on the discretized grids with the
stated areal density, and its areal density is minimal over all feasible
grid pairs. -/
theorem optimize_two_materials_grid_minimal (mat1 mat2 : Material)
    (mu1 mu2 T max1 max2 : ℝ) (s1 s2 : ℕ) (d : BestDetails)
    (h1 : mu_lin_from mat1 = some mu1) (h2 : mu_lin_from mat2 = some mu2)
    (hres : optimize_two_materials mat1 mat2 T max1 max2 s1 s2 =
      Except.ok (some d)) :
    d.transmission ≤ T ∧ d.t1_cm ∈ linspace max1 s1 ∧
      d.t2_cm ∈ linspace max2 s2 ∧
      d.areal_density_g_per_cm2 =
        mat1.density.getD 1 * d.t1_cm + mat2.density.getD 1 * d.t2_cm ∧
      ∀ t1 ∈ linspace max1 s1, ∀ t2 ∈ linspace max2 s2,
        transmission_exponential mu1 t1 * transmission_exponential mu2 t2 ≤ T →
        d.areal_density_g_per_cm2 ≤
          mat1.density.getD 1 * t1 + mat2.density.getD 1 * t2 := by
  obtain ⟨ht1, ht2, hareal, htr, hfeas, -, hmin⟩ :=
    opt_some_spec mat1 mat2 mu1 mu2 T max1 max2 s1 s2 d h1 h2 hres
  refine ⟨hfeas, ht1, ht2, hareal, ?_⟩
  intro t1 hm1 t2 hm2 hf
  rw [transmission_exponential, transmission_exponential] at hf
  exact hmin t1 hm1 t2 hm2 hf

theorem optimize_two_materials_grid_minimal_witness :
    (⟨0, 0, 0, 1⟩ : BestDetails).transmission ≤ 1 ∧
      (⟨0, 0, 0, 1⟩ : BestDetails).t1_cm ∈ linspace 0 1 ∧
      (⟨0, 0, 0, 1⟩ : BestDetails).t2_cm ∈ linspace 0 1 ∧
      (⟨0, 0, 0, 1⟩ : BestDetails).areal_density_g_per_cm2 =
        matUnit.density.getD 1 * (⟨0, 0, 0, 1⟩ : BestDetails).t1_cm +
          matUnit.density.getD 1 * (⟨0, 0, 0, 1⟩ : BestDetails).t2_cm ∧
      ∀ t1 ∈ linspace 0 1, ∀ t2 ∈ linspace 0 1,
        transmission_exponential 1 t1 * transmission_exponential 1 t2 ≤ 1 →
        (⟨0, 0, 0, 1⟩ : BestDetails).areal_density_g_per_cm2 ≤
          matUnit.density.getD 1 * t1 + matUnit.density.getD 1 * t2 :=
  optimize_two_materials_grid_minimal matUnit matUnit 1 1 1 0 0 1 1
    ⟨0, 0, 0, 1⟩ rfl rfl opt_trivial

/-- Claim C2: tie-breaking of `optimize_two_materials` on (ascending)
grids: any feasible grid pair attaining the returned minimal areal density
has a `t1` no smaller than the returned one, and within the returned `t1`
row a `t2` no smaller than the returned one. -/
theorem optimize_two_materials_tie_break (mat1 mat2 : Material)
    (mu1 mu2 T max1 max2 : ℝ) (s1 s2 : ℕ) (d : BestDetails)
    (h1 : mu_lin_from mat1 = some mu1) (h2 : mu_lin_from mat2 = some mu2)
    (hmax1 : 0 ≤ max1) (hmax2 : 0 ≤ max2)
    (hres : optimize_two_materials mat1 mat2 T max1 max2 s1 s2 =
      Except.ok (some d)) :
    ∀ t1 ∈ linspace max1 s1, ∀ t2 ∈ linspace max2 s2,
      transmission_exponential mu1 t1 * transmission_exponential mu2 t2 ≤ T →
      mat1.density.getD 1 * t1 + mat2.density.getD 1 * t2 =
        d.areal_density_g_per_cm2 →
      d.t1_cm ≤ t1 ∧ (t1 = d.t1_cm → d.t2_cm ≤ t2) := by
  intro t1 hm1 t2 hm2 hf harel
  rw [transmission_exponential, transmission_exponential] at hf
  exact opt_tie mat1 mat2 mu1 mu2 T max1 max2 s1 s2 d h1 h2 hmax1 hmax2 hres
    t1 hm1 t2 hm2 hf harel

theorem optimize_two_materials_tie_break_witness :
    (⟨0, 0, 0, 1⟩ : BestDetails).t1_cm ≤ 0 ∧
      (0 = (⟨0, 0, 0, 1⟩ : BestDetails).t1_cm →
        (⟨0, 0, 0, 1⟩ : BestDetails).t2_cm ≤ 0) := by
  refine optimize_two_materials_tie_break matUnit matUnit 1 1 1 0 0 1 1
    ⟨0, 0, 0, 1⟩ rfl rfl (le_refl 0) (le_refl 0) opt_trivial 0 ?_ 0 ?_ ?_ ?_
  · rw [linspace_zero_one]; exact List.mem_singleton.mpr rfl
  · rw [linspace_zero_one]; exact List.mem_singleton.mpr rfl
  · rw [transmission_exponential]; norm_num
  · norm_num [matUnit]

/-- Claim C3: when no grid pair achieves combined transmission at most
the target, `optimize_two_materials` returns the distinguished absent
result `Except.ok none` (Python `None`), never a zero-thickness design. -/
theorem optimize_two_materials_infeasible_none (mat1 mat2 : Material)
    (mu1 mu2 T max1 max2 : ℝ) (s1 s2 : ℕ)
    (h1 : mu_lin_from mat1 = some mu1) (h2 : mu_lin_from mat2 = some mu2)
    (hinf : ∀ t1 ∈ linspace max1 s1, ∀ t2 ∈ linspace max2 s2,
      ¬ transmission_exponential mu1 t1 * transmission_exponential mu2 t2 ≤ T) :
    optimize_two_materials mat1 mat2 T max1 max2 s1 s2 = Except.ok none := by
  rw [opt_none_iff mat1 mat2 mu1 mu2 T max1 max2 s1 s2 h1 h2]
  intro t1 hm1 t2 hm2
  have h := hinf t1 hm1 t2 hm2
  rw [transmission_exponential, transmission_exponential] at h
  exact h

theorem optimize_two_materials_infeasible_none_witness :
    optimize_two_materials matUnit matUnit (1 / 2) 0 0 1 1 =
      Except.ok none := by
  refine optimize_two_materials_infeasible_none matUnit matUnit 1 1 (1 / 2)
    0 0 1 1 rfl rfl ?_
  intro t1 hm1 t2 hm2
  rw [linspace_zero_one] at hm1 hm2
  rcases List.mem_singleton.mp hm1 with rfl
  rcases List.mem_singleton.mp hm2 with rfl
  rw [transmission_exponential]
  norm_num

/-- Claim C4, counterexample: `required_thickness_for_target` does NOT
raise for a target fraction greater than 1 — at target 2 it returns a
normal (negative) result, refuting the claimed rejection of targets > 1. -/
theorem required_thickness_accepts_above_one :
    required_thickness_for_target 1 2 = Except.ok (-Real.log 2 / 1) := by
  rw [required_thickness_for_target, if_neg (by norm_num)]

/-- Claim C4, amended: `required_thickness_for_target` raises exactly
when targetFraction <= 0 (checked before the computation); targets > 1
are accepted, and `optimize_two_materials` performs no target validation
at all — for resolvable materials it never raises, for any target. -/
theorem target_validation_characterization :
    (∀ mu T : ℝ,
      (∃ e, required_thickness_for_target mu T = Except.error e) ↔ T ≤ 0) ∧
    ∀ (mat1 mat2 : Material) (mu1 mu2 T max1 max2 : ℝ) (s1 s2 : ℕ),
      mu_lin_from mat1 = some mu1 → mu_lin_from mat2 = some mu2 →
      ∃ r, optimize_two_materials mat1 mat2 T max1 max2 s1 s2 =
        Except.ok r := by
  constructor
  · intro mu T
    constructor
    · rintro ⟨e, he⟩
      by_contra hT
      rw [required_thickness_for_target, if_neg hT] at he
      cases he
    · intro hT
      exact ⟨_, by rw [required_thickness_for_target, if_pos hT]⟩
  · intro mat1 mat2 mu1 mu2 T max1 max2 s1 s2 h1 h2
    exact ⟨_, optimize_eq mat1 mat2 mu1 mu2 T max1 max2 s1 s2 h1 h2⟩

theorem target_validation_characterization_witness :
    (∃ e, required_thickness_for_target 1 (-1) = Except.error e) ∧
      ∃ r, optimize_two_materials matUnit matUnit 2 0 0 1 1 = Except.ok r :=
  ⟨(target_validation_characterization.1 1 (-1)).mpr (by norm_num),
    target_validation_characterization.2 matUnit matUnit 1 1 2 0 0 1 1 rfl rfl⟩

/-- Claim C5, counterexample: with linearCoefficient = 0 and target 1/2
in (0, 1), `required_thickness_for_target` returns a normal result (numpy
produces an infinite thickness) instead of raising: the division by zero
is not guarded. -/
theorem required_thickness_mu_zero_no_error :
    required_thickness_for_target 0 (1 / 2) =
      Except.ok (-Real.log (1 / 2) / 0) := by
  rw [required_thickness_for_target, if_neg (by norm_num)]

/-- Claim C5, amended: `required_thickness_for_target` performs no check
on the linear coefficient; for every targetFraction > 0 it returns
successfully even when the coefficient is 0 (numpy silently yields
infinity). -/
theorem required_thickness_no_mu_guard (T : ℝ) (hT : 0 < T) :
    ∃ x, required_thickness_for_target 0 T = Except.ok x :=
  ⟨_, by rw [required_thickness_for_target, if_neg (not_le.mpr hT)]⟩

theorem required_thickness_no_mu_guard_witness :
    ∃ x, required_thickness_for_target 0 (1 / 2) = Except.ok x :=
  required_thickness_no_mu_guard (1 / 2) (by norm_num)

/-- Claim C7, counterexample: refining only the first grid from 3 to 4
steps (second grid fixed at 1 step) on the same bounds RAISES the reported
minimal areal density from 1 to 4/3, because the finer grid is not a
superset of the coarser one (the feasible point t1 = 1 is lost). -/
theorem optimize_finer_grid_worse :
    (3 : ℕ) ≤ 4 ∧ (1 : ℕ) ≤ 1 ∧
      arealOf (optimize_two_materials matUnit matUnit (Real.exp (-1)) 2 0 3 1) =
        some 1 ∧
      arealOf (optimize_two_materials matUnit matUnit (Real.exp (-1)) 2 0 4 1) =
        some (4 / 3) ∧
      (1 : ℝ) < 4 / 3 :=
  ⟨by norm_num, le_refl 1, opt_c7_coarse, opt_c7_fine, by norm_num⟩

/-- Claim C7, amended: the monotonicity does hold under grid refinements
that keep every coarse grid point (subset grids): the finer call then also
returns a design, of areal density no greater than the coarser one's. -/
theorem optimize_monotone_on_subgrid (mat1 mat2 : Material)
    (mu1 mu2 T max1 max2 : ℝ) (s1 s2 s1' s2' : ℕ) (d : BestDetails)
    (h1 : mu_lin_from mat1 = some mu1) (h2 : mu_lin_from mat2 = some mu2)
    (hg1 : ∀ t ∈ linspace max1 s1, t ∈ linspace max1 s1')
    (hg2 : ∀ t ∈ linspace max2 s2, t ∈ linspace max2 s2')
    (hres : optimize_two_materials mat1 mat2 T max1 max2 s1 s2 =
      Except.ok (some d)) :
    ∃ d', optimize_two_materials mat1 mat2 T max1 max2 s1' s2' =
        Except.ok (some d') ∧
      d'.areal_density_g_per_cm2 ≤ d.areal_density_g_per_cm2 := by
  obtain ⟨ht1, ht2, hareal, htr, hfeas, -, -⟩ :=
    opt_some_spec mat1 mat2 mu1 mu2 T max1 max2 s1 s2 d h1 h2 hres
  rw [htr] at hfeas
  obtain ⟨d', hd'⟩ := opt_feasible_some mat1 mat2 mu1 mu2 T max1 max2 s1' s2'
    d.t1_cm d.t2_cm h1 h2 (hg1 _ ht1) (hg2 _ ht2) hfeas
  obtain ⟨-, -, -, -, -, -, hmin'⟩ :=
    opt_some_spec mat1 mat2 mu1 mu2 T max1 max2 s1' s2' d' h1 h2 hd'
  refine ⟨d', hd', ?_⟩
  rw [hareal]
  exact hmin' d.t1_cm (hg1 _ ht1) d.t2_cm (hg2 _ ht2) hfeas

theorem optimize_monotone_on_subgrid_witness :
    ∃ d', optimize_two_materials matUnit matUnit 1 0 0 1 1 =
        Except.ok (some d') ∧
      d'.areal_density_g_per_cm2 ≤
        (⟨0, 0, 0, 1⟩ : BestDetails).areal_density_g_per_cm2 :=
  optimize_monotone_on_subgrid matUnit matUnit 1 1 1 0 0 1 1 1 1
    ⟨0, 0, 0, 1⟩ rfl rfl (fun _ ht => ht) (fun _ ht => ht) opt_trivial

/-- Claim C9, counterexample: the stochastic estimator performs no
parameter validation: with N = 0 samples it returns a numeric result (nan
in numpy, no exception), and with linearCoefficient = -1 <= 0 it likewise
returns normally, refuting the claimed errors for invalid parameters. -/
theorem mc_transmission_invalid_params_no_error :
    mc_transmission 1 0 [] = Except.ok (0, 0) ∧
      mc_transmission (-1) 0 [(1 / 2 : ℝ)] = Except.ok (0, 0) := by
  constructor
  · rw [mc_transmission]
    norm_num
  · rw [mc_transmission]
    have hlog : Real.log (1 / 2) < 0 :=
      Real.log_neg (by norm_num) (by norm_num)
    have hcond : ¬ (0 : ℝ) < -Real.log (1 / 2) / (-1) := by
      rw [neg_div_neg_eq, div_one]
      exact not_lt.mpr hlog.le
    simp only [List.map_cons, List.map_nil, List.filter, hcond,
      decide_eq_true_eq]
    norm_num

/-- Claim C9, amended: `mc_transmission` has no failure mode at all — it
returns a numeric pair for every coefficient, thickness and sample list,
with no validation of any parameter. -/
theorem mc_transmission_never_raises (mu_lin thickness : ℝ) (U : List ℝ) :
    ∃ p, mc_transmission mu_lin thickness U = Except.ok p :=
  ⟨_, rfl⟩

/-- Claim C10: for materials supplying `mu_lin` but no density, neither
solver raises: the density defaults to 1.0, so the single-material areal
density equals the thickness and the optimizer's areal density equals
t1 + t2. -/
theorem default_density_one (m1 m2 : Material) (mu1 mu2 T max1 max2 : ℝ)
    (s1 s2 : ℕ) (h1 : m1.mu_lin = some mu1) (hd1 : m1.density = none)
    (h2 : m2.mu_lin = some mu2) (hd2 : m2.density = none) (hT : 0 < T) :
    single_material_solution m1 T =
      Except.ok (-Real.log T / mu1, -Real.log T / mu1,
        transmission_exponential mu1 (-Real.log T / mu1)) ∧
      (∃ r, optimize_two_materials m1 m2 T max1 max2 s1 s2 = Except.ok r) ∧
      ∀ d, optimize_two_materials m1 m2 T max1 max2 s1 s2 =
          Except.ok (some d) →
        d.areal_density_g_per_cm2 = d.t1_cm + d.t2_cm := by
  have hml1 : mu_lin_from m1 = some mu1 := by simp [mu_lin_from, h1]
  have hml2 : mu_lin_from m2 = some mu2 := by simp [mu_lin_from, h2]
  have hreq : required_thickness_for_target mu1 T =
      Except.ok (-Real.log T / mu1) := by
    rw [required_thickness_for_target, if_neg (not_le.mpr hT)]
  refine ⟨?_, ⟨_, optimize_eq m1 m2 mu1 mu2 T max1 max2 s1 s2 hml1 hml2⟩, ?_⟩
  · simp only [single_material_solution, h1, hreq, Except.map, hd1]
    simp
  · intro d hres
    obtain ⟨-, -, hareal, -, -, -, -⟩ :=
      opt_some_spec m1 m2 mu1 mu2 T max1 max2 s1 s2 d hml1 hml2 hres
    rw [hareal, hd1, hd2]
    simp

theorem default_density_one_witness :
    single_material_solution matNoDensity 1 =
      Except.ok (-Real.log 1 / 1, -Real.log 1 / 1,
        transmission_exponential 1 (-Real.log 1 / 1)) ∧
      ∃ r, optimize_two_materials matNoDensity matNoDensity 1 0 0 1 1 =
        Except.ok r := by
  have h := default_density_one matNoDensity matNoDensity 1 1 1 0 0 1 1
    rfl rfl rfl rfl one_pos
  exact ⟨h.1, h.2.1⟩

/-- Closed instance of the amended Claim C9 theorem. -/
theorem mc_transmission_never_raises_witness :
    ∃ p, mc_transmission 1 1 [] = Except.ok p :=
  mc_transmission_never_raises 1 1 []
